import Mathlib

/-!
Verification development for the `discord_update` program (`src/main.rs`).

The program is embedded shallowly: every external effect (environment
variables, the shell lookup subprocess, HTTP requests, the filesystem,
the tar subprocess) is supplied by an `Env` record of outcomes, and the
program's functions become pure Lean functions from `Env` to results
plus a trace of performed effects.  Semantic versions, their parser and
their total order model the `semver` crate as used by the program, and
JSON payload decoding models the `serde` derive on `VersionPayload`.
-/

set_option linter.unusedVariables false
set_option linter.unreachableTactic false
set_option linter.unusedTactic false
set_option linter.unnecessarySeqFocus false

/-! ## Character-list string utilities (kernel-reducible) -/

/-- Split a list of characters at every occurrence of the separator
character, like `String.splitOn` with a one-character separator. -/
def splitOnChar (c : Char) : List Char → List (List Char)
  | [] => [[]]
  | x :: xs =>
    let r := splitOnChar c xs
    if x = c then [] :: r
    else
      match r with
      | [] => [[x]]
      | y :: ys => (x :: y) :: ys

/-- Numeric value of a list of decimal digit characters. -/
def digitsToNat (l : List Char) : Nat :=
  l.foldl (fun n c => n * 10 + (c.toNat - 48)) 0

/-- Lexicographic strict order on character lists (byte order on ASCII). -/
def charListLt : List Char → List Char → Bool
  | [], [] => false
  | [], _ :: _ => true
  | _ :: _, [] => false
  | a :: as, b :: bs => if a = b then charListLt as bs else decide (a < b)

/-- Join a list of strings with a separator string. -/
def strJoin (sep : String) : List String → String
  | [] => ""
  | [x] => x
  | x :: y :: rest => x ++ sep ++ strJoin sep (y :: rest)

/-- Drop ASCII whitespace from both ends of a character list; models
`str::trim` as applied to the shell lookup's stdout. -/
def trimChars (l : List Char) : List Char :=
  ((l.dropWhile Char.isWhitespace).reverse.dropWhile Char.isWhitespace).reverse

/-- `str::trim` on strings. -/
def strTrim (s : String) : String := ⟨trimChars s.data⟩

/-! ## Semantic versions: the `semver` crate's `Version` -/

/-- One dot-separated pre-release identifier: numeric identifiers are
compared numerically, alphanumeric ones lexically. -/
inductive PreId where
  | num (n : Nat)
  | alpha (s : String)
deriving DecidableEq

/-- A semantic version as in the `semver` crate: `major.minor.patch`
with optional pre-release and build-metadata identifier lists. -/
structure Version where
  major : Nat
  minor : Nat
  patch : Nat
  pre : List PreId
  build : List String
deriving DecidableEq

/-- The sentinel version `0.0.0` used by `main` for fresh installs
(`Version::new(0, 0, 0)`). -/
def v000 : Version := ⟨0, 0, 0, [], []⟩

/-- Characters allowed in semver pre-release/build identifiers:
ASCII alphanumerics and hyphen. -/
def identChar (c : Char) : Bool := c.isAlpha || c.isDigit || c = '-'

/-- Parse a numeric semver component: nonempty, all digits, no leading
zeros (except the single digit `0`). -/
def parseNumStrict : List Char → Option Nat
  | [] => none
  | [c] => if c.isDigit then some (c.toNat - 48) else none
  | c :: c2 :: rest =>
    if c = '0' then none
    else if (c :: c2 :: rest).all Char.isDigit then some (digitsToNat (c :: c2 :: rest))
    else none

/-- Parse one pre-release identifier: all-digit identifiers must have no
leading zeros and become numeric; otherwise alphanumeric. -/
def parsePreId (l : List Char) : Option PreId :=
  if l.isEmpty then none
  else if !(l.all identChar) then none
  else if l.all Char.isDigit then (parseNumStrict l).map PreId.num
  else some (PreId.alpha ⟨l⟩)

/-- Parse one build-metadata identifier: nonempty, identifier characters
only; leading zeros are allowed here. -/
def parseBuildId (l : List Char) : Option String :=
  if l.isEmpty then none
  else if l.all identChar then some ⟨l⟩
  else none

/-- `u64::MAX`: the largest value a numeric version component may take
in the `semver` crate. -/
def u64Max : Nat := 18446744073709551615

/-- Parse the `major.minor.patch` core of a semver string.  Each
component is a `u64` in the crate, so values above `u64::MAX` are
rejected (overflow error). -/
def parseCore (l : List Char) : Option (Nat × Nat × Nat) :=
  match splitOnChar '.' l with
  | [a, b, c] => do
    let x ← parseNumStrict a
    let y ← parseNumStrict b
    let z ← parseNumStrict c
    if x ≤ u64Max ∧ y ≤ u64Max ∧ z ≤ u64Max then pure (x, y, z) else none
  | _ => none

/-- Parse the dot-separated pre-release list. -/
def parsePre (l : List Char) : Option (List PreId) :=
  (splitOnChar '.' l).mapM parsePreId

/-- Parse the dot-separated build-metadata list. -/
def parseBuild (l : List Char) : Option (List String) :=
  (splitOnChar '.' l).mapM parseBuildId

/-- Parse `core[-pre]` given already-parsed build metadata: the core runs
up to the first hyphen, everything after it is the pre-release part. -/
def parseCorePre (l : List Char) (build : List String) : Option Version :=
  let core := l.takeWhile (fun c => !(c = '-'))
  let rest := l.dropWhile (fun c => !(c = '-'))
  match rest with
  | [] => (parseCore core).map (fun t => ⟨t.1, t.2.1, t.2.2, [], build⟩)
  | _ :: preChars => do
    let t ← parseCore core
    let pre ← parsePre preChars
    pure ⟨t.1, t.2.1, t.2.2, pre, build⟩

/-- `semver::Version::parse`: `major.minor.patch[-pre][+build]`.  The
build part runs from the first `+`; `+` may not occur in identifiers, so
more than one `+` is malformed. -/
def Version.parse (s : String) : Option Version :=
  match splitOnChar '+' s.data with
  | [cp] => parseCorePre cp []
  | [cp, b] =>
    match parseBuild b with
    | none => none
    | some bs => parseCorePre cp bs
  | _ => none

/-- Render a pre-release identifier back to its string form. -/
def PreId.render : PreId → String
  | .num n => toString n
  | .alpha s => s

/-- `Display` for `semver::Version`:
`major.minor.patch[-pre][+build]`; used to build the download URL and
archive file name. -/
def Version.render (v : Version) : String :=
  toString v.major ++ "." ++ toString v.minor ++ "." ++ toString v.patch
    ++ (if v.pre.isEmpty then "" else "-" ++ strJoin "." (v.pre.map PreId.render))
    ++ (if v.build.isEmpty then "" else "+" ++ strJoin "." v.build)

/-- Strict order on single pre-release identifiers: numeric identifiers
sort before alphanumeric ones; numeric compare numerically, alphanumeric
lexically. -/
def PreId.lt : PreId → PreId → Bool
  | .num a, .num b => decide (a < b)
  | .num _, .alpha _ => true
  | .alpha _, .num _ => false
  | .alpha a, .alpha b => charListLt a.data b.data

/-- Strict order on nonempty identifier lists: pointwise, with a proper
prefix sorting first. -/
def preListLt : List PreId → List PreId → Bool
  | [], [] => false
  | [], _ :: _ => true
  | _ :: _, [] => false
  | a :: as, b :: bs => if a = b then preListLt as bs else PreId.lt a b

/-- Strict order on single build identifiers, mirroring the crate:
all-digit identifiers compare numerically (length as tiebreak, since
leading zeros are allowed) and sort before alphanumeric ones. -/
def buildIdLt (a b : String) : Bool :=
  let na := a.data.all Char.isDigit
  let nb := b.data.all Char.isDigit
  if na && nb then
    if digitsToNat a.data = digitsToNat b.data then decide (a.length < b.length)
    else decide (digitsToNat a.data < digitsToNat b.data)
  else if na then true
  else if nb then false
  else charListLt a.data b.data

/-- Strict order on build identifier lists. -/
def buildListLt : List String → List String → Bool
  | [], [] => false
  | [], _ :: _ => true
  | _ :: _, [] => false
  | a :: as, b :: bs => if a = b then buildListLt as bs else buildIdLt a b

/-- The `semver` crate's `Ord` on `Version`: numeric components first,
then pre-release (a release sorts after any pre-release of the same
triple), with build metadata as a final tiebreak so the order is total
and agrees with equality. -/
def Version.lt (a b : Version) : Bool :=
  if a.major ≠ b.major then decide (a.major < b.major)
  else if a.minor ≠ b.minor then decide (a.minor < b.minor)
  else if a.patch ≠ b.patch then decide (a.patch < b.patch)
  else
    match a.pre, b.pre with
    | [], [] => buildListLt a.build b.build
    | [], _ :: _ => false
    | _ :: _, [] => true
    | pa, pb => if pa = pb then buildListLt a.build b.build else preListLt pa pb

/-! ## JSON payloads and `VersionPayload` decoding -/

/-- A JSON value, the abstract form of a response or file body. -/
inductive Json where
  | jnull
  | jbool (b : Bool)
  | jnum (n : Int)
  | jstr (s : String)
  | jarr (xs : List Json)
  | jobj (fields : List (String × Json))

/-- The raw text of a JSON body, abstracted: `some j` when the bytes are
well-formed JSON denoting `j`, `none` when they are malformed. -/
def JsonText := Option Json

/-- Error kinds, following the spec's taxonomy for the operations the
program performs.  The program itself erases kinds into
`Box<dyn Error>`; the kind here records which sort of failure the
environment produced. -/
inductive Err where
  | envVar
  | notFound
  | network
  | parseErr
  | ioErr
  | extraction
  | other
deriving DecidableEq

/-- Keys that the serde derive maps onto the `version` field slot: the
field name and its `alias = "name"`. -/
def isVersionKey (k : String) : Bool := k == "version" || k == "name"

/-- Serde's scan of the object's entries for the `version` field slot:
both `version` and `name` fill the same slot, unknown keys are ignored,
and a second matching entry is a duplicate-field error (`none`). -/
def findVersionField : List (String × Json) → Option Json → Option (Option Json)
  | [], acc => some acc
  | (k, v) :: rest, acc =>
    if isVersionKey k then
      match acc with
      | some _ => none
      | none => findVersionField rest (some v)
    else findVersionField rest acc

/-- Deserialization of `VersionPayload`: a JSON object whose single
`version` entry (with serde alias `name`) is a string parsed via
`DisplayFromStr` as a semver.  Malformed text, a non-object, a missing
field, a duplicated field (both keys or a repeated key), a non-string
field value or a non-semver string are all parse errors. -/
def parseVersionPayload (t : JsonText) : Except Err Version :=
  match t with
  | none => .error .parseErr
  | some j =>
    match j with
    | .jobj fields =>
      match findVersionField fields none with
      | none => .error .parseErr
      | some none => .error .parseErr
      | some (some (.jstr s)) =>
        match Version.parse s with
        | some v => .ok v
        | none => .error .parseErr
      | some (some _) => .error .parseErr
    | _ => .error .parseErr

/-! ## Paths and the external environment -/

/-- Filesystem paths, as the strings `PathBuf` displays. -/
abbrev FsPath := String

/-- `PathBuf::join` with a relative right-hand side. -/
def FsPath.join (p q : FsPath) : FsPath := p ++ "/" ++ q

/-- `Path::parent` for the absolute paths produced by `canonicalize`:
drop the final component; the root has no parent. -/
def parentDir (p : FsPath) : Option FsPath :=
  match (splitOnChar '/' p.data).dropLast with
  | [] => none
  | [[]] => if p = "/" then none else some "/"
  | parts => some (strJoin "/" (parts.map fun l => (⟨l⟩ : String)))

/-- One observable effect performed during a run. -/
inductive Event where
  | locateCall
  | fetchVersion
  | readInstalled (p : FsPath)
  | netGet (url : String)
  | fileWrite (p : FsPath)
  | mkdir (p : FsPath)
  | tarExtract (archive : FsPath) (dest : FsPath)
  | tempDirCreate (p : FsPath)
  | tempDirRemove (p : FsPath)
  | symlinkCreate (target : FsPath) (link : FsPath)
deriving DecidableEq

/-- Events emitted only by the download/extract step `update_discord`. -/
def Event.isDownloadEvent : Event → Bool
  | .netGet _ => true
  | .fileWrite _ => true
  | .tarExtract _ _ => true
  | .tempDirCreate _ => true
  | .tempDirRemove _ => true
  | _ => false

/-- Events that mutate the filesystem. -/
def Event.isWrite : Event → Bool
  | .fileWrite _ => true
  | .mkdir _ => true
  | .tarExtract _ _ => true
  | .tempDirCreate _ => true
  | .tempDirRemove _ => true
  | .symlinkCreate _ _ => true
  | _ => false

/-- Outcomes of every external operation the program performs, fixed for
one run.  Each field corresponds to one effectful call site in
`src/main.rs`. -/
structure Env where
  /-- `env::var("HOME")`. -/
  home : Option String
  /-- stdout of `bash -c "source ~/.profile ~/.bashrc ~/.zshrc; which discord"`,
  or the failure of that script/spawn. -/
  bashWhich : Except Err String
  /-- `tokio::fs::canonicalize` on the path printed by the lookup. -/
  canonicalize : FsPath → Except Err FsPath
  /-- body of `GET https://discord.com/api/updates/stable?platform=linux`,
  or a network failure. -/
  fetchLatestBody : Except Err JsonText
  /-- `tokio::fs::try_exists` on a path. -/
  tryExists : FsPath → Except Err Bool
  /-- `tokio::fs::read_to_string` of a `build_info.json` file. -/
  readBuildInfo : FsPath → Except Err JsonText
  /-- `tempfile::tempdir()`: the created scoped directory, or an error. -/
  tempDir : Except Err FsPath
  /-- `reqwest::get` on the archive URL: content length (0 if absent), or
  a network failure. -/
  httpGet : String → Except Err Nat
  /-- `tokio::fs::File::create` of the download destination. -/
  createFile : FsPath → Except Err Unit
  /-- `tokio::io::copy` of the response stream into the file. -/
  copyStream : Except Err Unit
  /-- `tokio::fs::create_dir_all` on a path. -/
  createDirAll : FsPath → Except Err Unit
  /-- the `tar -xvf .. -C .. --strip-components=1` subprocess: spawn
  failure, non-zero exit (extraction error), or success. -/
  tarRun : FsPath → FsPath → Except Err Unit
  /-- whether a file or symlink already exists at a prospective link
  path (`tokio::fs::symlink` refuses to overwrite). -/
  linkOccupied : FsPath → Bool
  /-- any other I/O failure of `tokio::fs::symlink` at an unoccupied
  link path. -/
  symlinkIo : FsPath → FsPath → Except Err Unit

/-! ## The program's functions -/

/-- `locate_installed_discord`: run the shell lookup, trim its stdout,
canonicalize it, and take the parent directory.  A missing parent is the
bespoke "bad discord install path" error. -/
def locate_installed_discord (env : Env) : Except Err FsPath :=
  match env.bashWhich with
  | .error e => .error e
  | .ok out =>
    match env.canonicalize (strTrim out) with
    | .error e => .error e
    | .ok canon =>
      match parentDir canon with
      | none => .error .other
      | some parent => .ok parent

/-- `get_latest_discord_version`: GET the updates endpoint and decode a
`VersionPayload` from the body. -/
def get_latest_discord_version (env : Env) : Except Err Version :=
  match env.fetchLatestBody with
  | .error e => .error e
  | .ok t => parseVersionPayload t

/-- `get_installed_version`: read `resources/build_info.json` under the
install path and decode a `VersionPayload` from it. -/
def get_installed_version (env : Env) (install_path : FsPath) : Except Err Version :=
  match env.readBuildInfo (install_path.join "resources/build_info.json") with
  | .error e => .error e
  | .ok t => parseVersionPayload t

/-- `home_dir`: `env::var("HOME")`, an error when unset. -/
def home_dir (env : Env) : Except Err FsPath :=
  match env.home with
  | some h => .ok h
  | none => .error .envVar

/-- `default_discord_path`: `<home>/bin/discord_bin/Discord/Discord`. -/
def default_discord_path (env : Env) : Except Err FsPath :=
  match home_dir env with
  | .error e => .error e
  | .ok h => .ok (FsPath.join h "bin/discord_bin/Discord/Discord")

/-- `tokio::fs::symlink`: fails when something already exists at the
link path (no overwrite), otherwise subject to ordinary I/O failure. -/
def fsSymlink (env : Env) (source link : FsPath) : Except Err Unit :=
  if env.linkOccupied link then .error .ioErr else env.symlinkIo source link

/-- `create_home_bin_symlink`: ensure `<home>/bin` exists, then create
the symlink `<home>/bin/discord` pointing at `source`. -/
def create_home_bin_symlink (env : Env) (source : FsPath) :
    Except Err Unit × List Event :=
  match home_dir env with
  | .error e => (.error e, [])
  | .ok h =>
    let bin_dir := FsPath.join h "bin"
    match env.createDirAll bin_dir with
    | .error e => (.error e, [])
    | .ok _ =>
      match fsSymlink env source (bin_dir.join "discord") with
      | .error e => (.error e, [.mkdir bin_dir])
      | .ok _ => (.ok (), [.mkdir bin_dir, .symlinkCreate source (bin_dir.join "discord")])

/-- The templated archive URL
`https://dl.discordapp.net/apps/linux/{version}/discord-{version}.tar.gz`. -/
def archiveUrl (v : Version) : String :=
  "https://dl.discordapp.net/apps/linux/" ++ v.render ++ "/discord-" ++ v.render ++ ".tar.gz"

/-- The archive file name `discord-{version}.tar.gz` inside the temp
directory. -/
def archiveName (v : Version) : String :=
  "discord-" ++ v.render ++ ".tar.gz"

/-- `update_discord`: create a scoped temp directory, stream the archive
into it, ensure the install path exists, and extract there.  The temp
directory is removed when the scope ends, on success and on every error
return alike (`tempfile::TempDir` drop). -/
def update_discord (env : Env) (install_path : FsPath) (version : Version) :
    Except Err Unit × List Event :=
  match env.tempDir with
  | .error e => (.error e, [])
  | .ok temp_dir =>
    let download_url := archiveUrl version
    let download_path := FsPath.join temp_dir (archiveName version)
    let body : Except Err Unit × List Event :=
      match env.httpGet download_url with
      | .error e => (.error e, [.netGet download_url])
      | .ok _size =>
        match env.createFile download_path with
        | .error e => (.error e, [.netGet download_url])
        | .ok _ =>
          match env.copyStream with
          | .error e => (.error e, [.netGet download_url, .fileWrite download_path])
          | .ok _ =>
            match env.createDirAll install_path with
            | .error e => (.error e, [.netGet download_url, .fileWrite download_path])
            | .ok _ =>
              match env.tarRun download_path install_path with
              | .error e =>
                (.error e, [.netGet download_url, .fileWrite download_path, .mkdir install_path])
              | .ok _ =>
                (.ok (), [.netGet download_url, .fileWrite download_path,
                  .mkdir install_path, .tarExtract download_path install_path])
    (body.1, Event.tempDirCreate temp_dir :: body.2 ++ [Event.tempDirRemove temp_dir])

/-- The install path `main` settles on: the located one, or the default
on any locate failure. -/
def chooseInstallPath (env : Env) (dflt : FsPath) : FsPath :=
  match locate_installed_discord env with
  | .ok p => p
  | .error _ => dflt

/-- Outcome of the first half of `main`: resolved install path, latest
and current versions, and the `install_fresh` flag. -/
structure ResolveOut where
  installPath : FsPath
  latest : Version
  current : Version
  installFresh : Bool
deriving DecidableEq

/-- The first half of `main` (lines 150–168): compute the default path
(fatal if `HOME` is unset), locate the install with fallback to the
default, fetch the latest version (fatal on failure), and resolve the
current version by existence of the install path. -/
def resolve (env : Env) : Except Err ResolveOut × List Event :=
  match default_discord_path env with
  | .error e => (.error e, [])
  | .ok dflt =>
    let install_path := chooseInstallPath env dflt
    match get_latest_discord_version env with
    | .error e => (.error e, [.locateCall, .fetchVersion])
    | .ok latest =>
      match env.tryExists install_path with
      | .error e => (.error e, [.locateCall, .fetchVersion])
      | .ok true =>
        match get_installed_version env install_path with
        | .error e => (.error e, [.locateCall, .fetchVersion, .readInstalled install_path])
        | .ok current =>
          (.ok ⟨install_path, latest, current, false⟩,
            [.locateCall, .fetchVersion, .readInstalled install_path])
      | .ok false =>
        (.ok ⟨install_path, latest, v000, true⟩, [.locateCall, .fetchVersion])

/-- Ghost record of one run: the events performed, the resolution
outcome if reached, and whether `update_discord` and
`create_home_bin_symlink` were invoked. -/
structure RunLog where
  events : List Event
  resolved : Option ResolveOut
  updateInvoked : Bool
  symlinkInvoked : Bool
deriving DecidableEq

/-- The tail of `main` (lines 180–185): create the convenience symlink
at the default path exactly when `install_fresh` was set. -/
def finishMain (env : Env) (r : ResolveOut) (evs : List Event) (upd : Bool) :
    Except Err Unit × RunLog :=
  if r.installFresh then
    match default_discord_path env with
    | .error e => (.error e, ⟨evs, some r, upd, false⟩)
    | .ok dflt =>
      match create_home_bin_symlink env dflt with
      | (.error e, evs3) => (.error e, ⟨evs ++ evs3, some r, upd, true⟩)
      | (.ok _, evs3) => (.ok (), ⟨evs ++ evs3, some r, upd, true⟩)
  else (.ok (), ⟨evs, some r, upd, false⟩)

/-- `main`: resolve, compare versions, update when the latest version is
strictly greater than the current one, then finish. -/
def runMain (env : Env) : Except Err Unit × RunLog :=
  match resolve env with
  | (.error e, evs) => (.error e, ⟨evs, none, false, false⟩)
  | (.ok r, evs) =>
    if Version.lt r.current r.latest then
      match update_discord env r.installPath r.latest with
      | (.error e, evs2) => (.error e, ⟨evs ++ evs2, some r, true, false⟩)
      | (.ok _, evs2) => finishMain env r (evs ++ evs2) true
    else finishMain env r evs false

/-! ## Model of the tar invocation's placement of entries -/

/-- Filesystem placement of `tar -xvf archive -C dest
--strip-components=1`: each entry loses its first path component; entries
left with no components create nothing. -/
def tarPlacement (dest : FsPath) (entries : List (List String)) : List FsPath :=
  entries.filterMap fun p =>
    match p with
    | [] => none
    | [_] => none
    | _ :: rest => some (FsPath.join dest (strJoin "/" rest))

/-! ## Decidability and concrete test fixtures -/

deriving instance DecidableEq for Except

/-- The JSON body `{"version": s}`. -/
def jsonV (s : String) : Json := .jobj [("version", .jstr s)]

/-- A baseline environment: `HOME` set, the shell lookup failing, the
default path existing with version `1.2.3` installed, the remote
reporting `1.2.3`, and every later operation succeeding. -/
def envBase : Env := {
  home := some "/home/u",
  bashWhich := .error .notFound,
  canonicalize := fun _ => .error .ioErr,
  fetchLatestBody := .ok (some (jsonV "1.2.3")),
  tryExists := fun _ => .ok true,
  readBuildInfo := fun _ => .ok (some (jsonV "1.2.3")),
  tempDir := .ok "/tmp/t",
  httpGet := fun _ => .ok 0,
  createFile := fun _ => .ok (),
  copyStream := .ok (),
  createDirAll := fun _ => .ok (),
  tarRun := fun _ _ => .ok (),
  linkOccupied := fun _ => false,
  symlinkIo := fun _ _ => .ok () }

/-! ## Helper lemmas about the traces -/

/-- An event that neither writes the filesystem nor belongs to the
download/extract step. -/
def readOnlyEvent (e : Event) : Bool := !e.isWrite && !e.isDownloadEvent

/-- Every event other than a symlink creation. -/
def notSymlinkEvent : Event → Bool
  | .symlinkCreate _ _ => false
  | _ => true

lemma resolve_events_readonly (env : Env) :
    (resolve env).2.all readOnlyEvent = true := by
  unfold resolve
  split
  · rfl
  · simp only []
    split
    · rfl
    · split <;> (try split) <;> rfl

lemma update_events_no_symlink (env : Env) (ip : FsPath) (v : Version) :
    (update_discord env ip v).2.all notSymlinkEvent = true := by
  unfold update_discord
  split
  · rfl
  · simp only []
    split <;> (try split) <;> (try split) <;> (try split) <;> (try split) <;> rfl

lemma resolve_ok_home (env : Env) (r : ResolveOut) (evs : List Event)
    (h : resolve env = (.ok r, evs)) : ∃ hh, env.home = some hh := by
  rcases hh : env.home with _ | hme
  · exfalso
    unfold resolve default_discord_path home_dir at h
    rw [hh] at h
    simp at h
  · exact ⟨hme, rfl⟩

lemma finishMain_resolved (env : Env) (r : ResolveOut) (evs : List Event) (upd : Bool) :
    (finishMain env r evs upd).2.resolved = some r := by
  unfold finishMain
  split
  · split
    · rfl
    · split <;> rfl
  · rfl

lemma finishMain_updateInvoked (env : Env) (r : ResolveOut) (evs : List Event) (upd : Bool) :
    (finishMain env r evs upd).2.updateInvoked = upd := by
  unfold finishMain
  split
  · split
    · rfl
    · split <;> rfl
  · rfl

lemma finishMain_symlinkInvoked (env : Env) (r : ResolveOut) (evs : List Event) (upd : Bool)
    (hh : String) (h : env.home = some hh) :
    (finishMain env r evs upd).2.symlinkInvoked = r.installFresh := by
  unfold finishMain
  split
  · rename_i hf
    split
    · rename_i hd
      exfalso
      unfold default_discord_path home_dir at hd
      rw [h] at hd
      simp at hd
    · rw [hf]
      split <;> rfl
  · rename_i hf
    simp only [RunLog.symlinkInvoked]
    exact (Bool.not_eq_true _).mp hf |>.symm

lemma runMain_resolved_of_resolve (env : Env) (r : ResolveOut) (evs : List Event)
    (h : resolve env = (.ok r, evs)) : (runMain env).2.resolved = some r := by
  simp only [runMain, h]
  split
  · rcases hup : update_discord env r.installPath r.latest with ⟨ur, uevs⟩
    rcases ur with e | u
    · simp only [hup]
    · simp only [hup]
      exact finishMain_resolved env r (evs ++ uevs) true
  · exact finishMain_resolved env r evs false

lemma runMain_error_of_resolve_error (env : Env) (e : Err) (evs : List Event)
    (h : resolve env = (.error e, evs)) :
    runMain env = (.error e, ⟨evs, none, false, false⟩) := by
  simp only [runMain, h]

lemma runMain_resolved_inv (env : Env) (r : ResolveOut)
    (h : (runMain env).2.resolved = some r) : ∃ evs, resolve env = (.ok r, evs) := by
  rcases hres : resolve env with ⟨res, evs⟩
  rcases res with e | r'
  · rw [runMain_error_of_resolve_error env e evs hres] at h
    simp at h
  · have h2 := (runMain_resolved_of_resolve env r' evs hres).symm.trans h
    simp only [Option.some.injEq] at h2
    exact ⟨evs, by rw [h2]⟩

/-- C9: if the `HOME` environment variable is unset, the run fails with
the environment-variable error computed at startup, before the locate
phase or any network activity: the result is that error and the trace of
performed effects is empty. -/
theorem claim9_theorem (env : Env) (h : env.home = none) :
    runMain env = (.error .envVar, ⟨[], none, false, false⟩) := by
  unfold runMain resolve default_discord_path home_dir
  rw [h]

/-- An environment whose `HOME` is unset. -/
def envNoHome : Env := { envBase with home := none }

theorem claim9_witness : runMain envNoHome = (.error .envVar, ⟨[], none, false, false⟩) :=
  claim9_theorem envNoHome rfl

/-- C2: whenever resolution completes, the install path is the located
one with fallback to the default under the home directory, and the
current version and `install_fresh` flag are determined solely by
whether that path exists: a non-existing path yields the sentinel
`0.0.0` and a fresh install, an existing path yields the version read
from its `build_info.json` and a non-fresh install — for every locate
outcome. -/
theorem claim2_theorem (env : Env) (r : ResolveOut) (evs : List Event)
    (h : resolve env = (.ok r, evs)) :
    (∃ hh, env.home = some hh ∧
      r.installPath = chooseInstallPath env (FsPath.join hh "bin/discord_bin/Discord/Discord")) ∧
    (env.tryExists r.installPath = .ok false → r.current = v000 ∧ r.installFresh = true) ∧
    (env.tryExists r.installPath = .ok true →
      get_installed_version env r.installPath = .ok r.current ∧ r.installFresh = false) := by
  obtain ⟨hh, hhome⟩ := resolve_ok_home env r evs h
  unfold resolve default_discord_path home_dir at h
  rw [hhome] at h
  simp only [] at h
  split at h
  · simp at h
  · split at h
    · simp at h
    · rename_i hexists
      split at h
      · simp at h
      · rename_i hread
        simp only [Prod.mk.injEq, Except.ok.injEq] at h
        obtain ⟨h1, h2⟩ := h
        subst h1
        refine ⟨⟨hh, hhome, rfl⟩, ?_, fun _ => ⟨hread, rfl⟩⟩
        intro hfalse
        exact absurd (hexists.symm.trans hfalse) (by simp)
    · rename_i hexists
      simp only [Prod.mk.injEq, Except.ok.injEq] at h
      obtain ⟨h1, h2⟩ := h
      subst h1
      refine ⟨⟨hh, hhome, rfl⟩, fun _ => ⟨rfl, rfl⟩, ?_⟩
      intro htrue
      exact absurd (hexists.symm.trans htrue) (by simp)

/-- The resolution outcome of `envBase`: default path, both versions
`1.2.3`, not fresh. -/
def rOutBase : ResolveOut :=
  ⟨"/home/u/bin/discord_bin/Discord/Discord", ⟨1, 2, 3, [], []⟩, ⟨1, 2, 3, [], []⟩, false⟩

theorem claim2_witness :
    get_installed_version envBase rOutBase.installPath = .ok rOutBase.current ∧
      rOutBase.installFresh = false :=
  (claim2_theorem envBase rOutBase
      [.locateCall, .fetchVersion, .readInstalled "/home/u/bin/discord_bin/Discord/Discord"]
      (by decide)).2.2 (by decide)

/-- C6: a successful download-and-install run ensures the install path
exists (`create_dir_all`) before it extracts there, and the
`--strip-components=1` extraction places every entry of an archive whose
entries share one leading component directly under the destination, not
under a subdirectory named after that component. -/
theorem claim6_theorem :
    (∀ env ip v td, env.tempDir = .ok td → (update_discord env ip v).1 = .ok () →
      (update_discord env ip v).2 =
        [.tempDirCreate td, .netGet (archiveUrl v),
          .fileWrite (FsPath.join td (archiveName v)), .mkdir ip,
          .tarExtract (FsPath.join td (archiveName v)) ip, .tempDirRemove td]) ∧
    (∀ c entries dest, (∀ p ∈ entries, ∃ rest, p = c :: rest) →
      ∀ q ∈ tarPlacement dest entries, ∃ rest, rest ≠ [] ∧ (c :: rest) ∈ entries ∧
        q = FsPath.join dest (strJoin "/" rest)) := by
  constructor
  · intro env ip v td htd hok
    rcases hg : env.httpGet (archiveUrl v) with e1 | len
    · have hu : (update_discord env ip v).1 = .error e1 := by
        unfold update_discord
        rw [htd]
        simp only []
        rw [hg] <;> rfl
      rw [hu] at hok
      exact absurd hok (by simp)
    · rcases hcf : env.createFile (FsPath.join td (archiveName v)) with e2 | u2
      · have hu : (update_discord env ip v).1 = .error e2 := by
          unfold update_discord
          rw [htd]
          simp only []
          rw [hg, hcf] <;> rfl
        rw [hu] at hok
        exact absurd hok (by simp)
      · rcases hcp : env.copyStream with e3 | u3
        · have hu : (update_discord env ip v).1 = .error e3 := by
            unfold update_discord
            rw [htd]
            simp only []
            rw [hg, hcf, hcp] <;> rfl
          rw [hu] at hok
          exact absurd hok (by simp)
        · rcases hcd : env.createDirAll ip with e4 | u4
          · have hu : (update_discord env ip v).1 = .error e4 := by
              unfold update_discord
              rw [htd]
              simp only []
              rw [hg, hcf, hcp, hcd] <;> rfl
            rw [hu] at hok
            exact absurd hok (by simp)
          · rcases htar : env.tarRun (FsPath.join td (archiveName v)) ip with e5 | u5
            · have hu : (update_discord env ip v).1 = .error e5 := by
                unfold update_discord
                rw [htd]
                simp only []
                rw [hg, hcf, hcp, hcd, htar] <;> rfl
              rw [hu] at hok
              exact absurd hok (by simp)
            · unfold update_discord
              rw [htd]
              simp only []
              rw [hg, hcf, hcp, hcd, htar] <;> rfl
  · intro c entries dest hall q hq
    unfold tarPlacement at hq
    rw [List.mem_filterMap] at hq
    obtain ⟨p, hp, hfp⟩ := hq
    obtain ⟨rest, rfl⟩ := hall p hp
    rcases rest with _ | ⟨r, rs⟩
    · simp at hfp
    · simp only [Option.some.injEq] at hfp
      exact ⟨r :: rs, by simp, hp, hfp.symm⟩

theorem claim6_witness :
    (update_discord envBase "/inst" ⟨1, 2, 3, [], []⟩).2 =
      [.tempDirCreate "/tmp/t", .netGet (archiveUrl ⟨1, 2, 3, [], []⟩),
        .fileWrite (FsPath.join "/tmp/t" (archiveName ⟨1, 2, 3, [], []⟩)), .mkdir "/inst",
        .tarExtract (FsPath.join "/tmp/t" (archiveName ⟨1, 2, 3, [], []⟩)) "/inst",
        .tempDirRemove "/tmp/t"] :=
  claim6_theorem.1 envBase "/inst" ⟨1, 2, 3, [], []⟩ "/tmp/t" rfl (by decide)

/-- A download-phase failure: the archive GET fails, the destination
file cannot be created inside the temp directory, or copying the
response body fails. -/
def downloadFailed (env : Env) (v : Version) : Prop :=
  (∃ e, env.httpGet (archiveUrl v) = .error e) ∨
  (∃ td e, env.tempDir = .ok td ∧ env.createFile (FsPath.join td (archiveName v)) = .error e) ∨
  (∃ e, env.copyStream = .error e)

/-- C4: the downloaded archive is written only inside the scoped temp
directory; every created temp directory is removed on every exit path;
and a download-phase failure yields an error with no install-path
events (no directory creation at and no extraction into the install
path). -/
theorem claim4_theorem (env : Env) (ip : FsPath) (v : Version) :
    (∀ p, Event.fileWrite p ∈ (update_discord env ip v).2 →
      ∃ td, env.tempDir = .ok td ∧ p = FsPath.join td (archiveName v)) ∧
    (∀ td, Event.tempDirCreate td ∈ (update_discord env ip v).2 →
      Event.tempDirRemove td ∈ (update_discord env ip v).2) ∧
    (downloadFailed env v →
      (∃ e, (update_discord env ip v).1 = .error e) ∧
      Event.mkdir ip ∉ (update_discord env ip v).2 ∧
      ∀ a, Event.tarExtract a ip ∉ (update_discord env ip v).2) := by
  rcases htd : env.tempDir with e0 | td
  · have hu : update_discord env ip v = (.error e0, []) := by
      unfold update_discord
      rw [htd]
    rw [hu]
    exact ⟨by intro p hp; simp at hp, by intro t ht; simp at ht,
      fun _ => ⟨⟨e0, rfl⟩, by simp, by simp⟩⟩
  · rcases hg : env.httpGet (archiveUrl v) with e1 | len
    · have hu : update_discord env ip v =
          (.error e1, [.tempDirCreate td, .netGet (archiveUrl v), .tempDirRemove td]) := by
        unfold update_discord
        rw [htd]
        simp only []
        rw [hg] <;> rfl
      rw [hu]
      refine ⟨by intro p hp; simp at hp, ?_, fun _ => ⟨⟨e1, rfl⟩, by simp, by simp⟩⟩
      intro t ht
      simp at ht
      subst ht
      simp
    · rcases hcf : env.createFile (FsPath.join td (archiveName v)) with e2 | u2
      · have hu : update_discord env ip v =
            (.error e2, [.tempDirCreate td, .netGet (archiveUrl v), .tempDirRemove td]) := by
          unfold update_discord
          rw [htd]
          simp only []
          rw [hg, hcf] <;> rfl
        rw [hu]
        refine ⟨by intro p hp; simp at hp, ?_, fun _ => ⟨⟨e2, rfl⟩, by simp, by simp⟩⟩
        intro t ht
        simp at ht
        subst ht
        simp
      · rcases hcp : env.copyStream with e3 | u3
        · have hu : update_discord env ip v =
              (.error e3, [.tempDirCreate td, .netGet (archiveUrl v),
                .fileWrite (FsPath.join td (archiveName v)), .tempDirRemove td]) := by
            unfold update_discord
            rw [htd]
            simp only []
            rw [hg, hcf, hcp] <;> rfl
          rw [hu]
          refine ⟨?_, ?_, fun _ => ⟨⟨e3, rfl⟩, by simp, by simp⟩⟩
          · intro p hp
            simp at hp
            exact ⟨td, rfl, hp⟩
          · intro t ht
            simp at ht
            subst ht
            simp
        · have hnofail : ¬ downloadFailed env v := by
            intro hdf
            rcases hdf with ⟨e, h⟩ | ⟨td', e, h1, h2⟩ | ⟨e, h⟩
            · rw [hg] at h
              exact absurd h (by simp)
            · rw [htd] at h1
              injection h1 with h1
              subst h1
              rw [hcf] at h2
              exact absurd h2 (by simp)
            · rw [hcp] at h
              exact absurd h (by simp)
          rcases hcd : env.createDirAll ip with e4 | u4
          · have hu : update_discord env ip v =
                (.error e4, [.tempDirCreate td, .netGet (archiveUrl v),
                  .fileWrite (FsPath.join td (archiveName v)), .tempDirRemove td]) := by
              unfold update_discord
              rw [htd]
              simp only []
              rw [hg, hcf, hcp, hcd] <;> rfl
            rw [hu]
            refine ⟨?_, ?_, fun hdf => absurd hdf hnofail⟩
            · intro p hp
              simp at hp
              exact ⟨td, rfl, hp⟩
            · intro t ht
              simp at ht
              subst ht
              simp
          · rcases htar : env.tarRun (FsPath.join td (archiveName v)) ip with e5 | u5
            · have hu : update_discord env ip v =
                  (.error e5, [.tempDirCreate td, .netGet (archiveUrl v),
                    .fileWrite (FsPath.join td (archiveName v)), .mkdir ip, .tempDirRemove td]) := by
                unfold update_discord
                rw [htd]
                simp only []
                rw [hg, hcf, hcp, hcd, htar] <;> rfl
              rw [hu]
              refine ⟨?_, ?_, fun hdf => absurd hdf hnofail⟩
              · intro p hp
                simp at hp
                exact ⟨td, rfl, hp⟩
              · intro t ht
                simp at ht
                subst ht
                simp
            · have hu : update_discord env ip v =
                  (.ok (), [.tempDirCreate td, .netGet (archiveUrl v),
                    .fileWrite (FsPath.join td (archiveName v)), .mkdir ip,
                    .tarExtract (FsPath.join td (archiveName v)) ip, .tempDirRemove td]) := by
                unfold update_discord
                rw [htd]
                simp only []
                rw [hg, hcf, hcp, hcd, htar] <;> rfl
              rw [hu]
              refine ⟨?_, ?_, fun hdf => absurd hdf hnofail⟩
              · intro p hp
                simp at hp
                exact ⟨td, rfl, hp⟩
              · intro t ht
                simp at ht
                subst ht
                simp

/-- An environment whose archive-body copy fails with a network error. -/
def envDownFail : Env := { envBase with copyStream := .error .network }

theorem claim4_witness :
    Event.mkdir "/inst" ∉ (update_discord envDownFail "/inst" ⟨1, 2, 3, [], []⟩).2 :=
  ((claim4_theorem envDownFail "/inst" ⟨1, 2, 3, [], []⟩).2.2
    (Or.inr (Or.inr ⟨.network, rfl⟩))).2.1

lemma readOnly_imp_notSymlink (e : Event) (h : readOnlyEvent e = true) :
    notSymlinkEvent e = true := by
  cases e <;> simp_all [readOnlyEvent, notSymlinkEvent, Event.isWrite, Event.isDownloadEvent]

lemma all_imp {p q : Event → Bool} (h : ∀ e, p e = true → q e = true)
    (l : List Event) (hl : l.all p = true) : l.all q = true := by
  rw [List.all_eq_true] at hl ⊢
  exact fun e he => h e (hl e he)

lemma symlink_events_not_download (env : Env) (src : FsPath) :
    (create_home_bin_symlink env src).2.all (fun e => !e.isDownloadEvent) = true := by
  unfold create_home_bin_symlink
  split
  · rfl
  · simp only []
    split
    · rfl
    · split <;> rfl

lemma symlink_events_invoked (env : Env) (src : FsPath) (s d : FsPath)
    (h : Event.symlinkCreate s d ∈ (create_home_bin_symlink env src).2) :
    s = src ∧ ∃ hh, env.home = some hh ∧ d = FsPath.join (FsPath.join hh "bin") "discord" := by
  unfold create_home_bin_symlink at h
  split at h
  · simp at h
  · rename_i hh hhd
    simp only [] at h
    split at h
    · simp at h
    · split at h
      · simp at h
      · simp at h
        unfold home_dir at hhd
        rcases hhome : env.home with _ | hv
        · rw [hhome] at hhd
          simp at hhd
        · rw [hhome] at hhd
          injection hhd with hhd
          exact ⟨h.1, hv, rfl, by rw [h.2, hhd]⟩

lemma resolve_fresh_current (env : Env) (r : ResolveOut) (evs : List Event)
    (hres : resolve env = (.ok r, evs)) (hfresh : r.installFresh = true) :
    r.current = v000 ∧ Version.lt r.current r.latest = Version.lt v000 r.latest := by
  obtain ⟨hh, hhome⟩ := resolve_ok_home env r evs hres
  unfold resolve default_discord_path home_dir at hres
  rw [hhome] at hres
  simp only [] at hres
  split at hres
  · simp at hres
  · split at hres
    · simp at hres
    · split at hres
      · simp at hres
      · simp only [Prod.mk.injEq, Except.ok.injEq] at hres
        obtain ⟨h1, h2⟩ := hres
        subst h1
        simp at hfresh
    · simp only [Prod.mk.injEq, Except.ok.injEq] at hres
      obtain ⟨h1, h2⟩ := hres
      subst h1
      exact ⟨rfl, rfl⟩

lemma runMain_updateInvoked_eq (env : Env) (r : ResolveOut) (evs : List Event)
    (hres : resolve env = (.ok r, evs)) :
    (runMain env).2.updateInvoked = Version.lt r.current r.latest := by
  simp only [runMain, hres]
  split
  · rename_i hlt
    rcases hup : update_discord env r.installPath r.latest with ⟨ur, uevs⟩
    rcases ur with e | u
    · simp only [hup, hlt]
    · simp only [hup]
      rw [finishMain_updateInvoked, hlt]
  · rename_i hlt
    rw [finishMain_updateInvoked]
    simp at hlt
    rw [hlt]

lemma runMain_symlinkInvoked_false (env : Env) (r : ResolveOut) (evs : List Event)
    (hres : resolve env = (.ok r, evs)) (hfresh : r.installFresh = false) :
    (runMain env).2.symlinkInvoked = false := by
  simp only [runMain, hres]
  split
  · rcases hup : update_discord env r.installPath r.latest with ⟨ur, uevs⟩
    rcases ur with e | u
    · simp only [hup]
    · simp only [hup]
      unfold finishMain
      rw [hfresh]
      simp
  · unfold finishMain
    rw [hfresh]
    simp

lemma runMain_events_no_symlink_notfresh (env : Env) (r : ResolveOut) (evs : List Event)
    (hres : resolve env = (.ok r, evs)) (hfresh : r.installFresh = false) :
    (runMain env).2.events.all notSymlinkEvent = true := by
  have hro := resolve_events_readonly env
  rw [hres] at hro
  have hevs : evs.all notSymlinkEvent = true := all_imp readOnly_imp_notSymlink evs hro
  simp only [runMain, hres]
  split
  · rcases hup : update_discord env r.installPath r.latest with ⟨ur, uevs⟩
    have huevs : uevs.all notSymlinkEvent = true := by
      have := update_events_no_symlink env r.installPath r.latest
      rw [hup] at this
      exact this
    rcases ur with e | u
    · simp only [hup, RunLog.events]
      rw [List.all_append, hevs, huevs]
      rfl
    · simp only [hup]
      unfold finishMain
      rw [hfresh]
      simp only [Bool.false_eq_true, if_false, RunLog.events]
      rw [List.all_append, hevs, huevs]
      rfl
  · unfold finishMain
    rw [hfresh]
    simp only [Bool.false_eq_true, if_false, RunLog.events]
    exact hevs

/-- The version `1.2.3`. -/
def v123 : Version := ⟨1, 2, 3, [], []⟩

/-- C10: when the locate phase fails but the default install path
exists on disk, the run resolves to the default path, reads the current
version from it, keeps `install_fresh` false, and creates no
convenience symlink. -/
theorem claim10_theorem (env : Env) (hh : String) (e : Err) (tl ti : JsonText)
    (lat cur : Version)
    (h1 : env.home = some hh)
    (h2 : locate_installed_discord env = .error e)
    (h3 : env.tryExists (FsPath.join hh "bin/discord_bin/Discord/Discord") = .ok true)
    (h4 : env.fetchLatestBody = .ok tl)
    (h5 : parseVersionPayload tl = .ok lat)
    (h6 : env.readBuildInfo (FsPath.join (FsPath.join hh "bin/discord_bin/Discord/Discord")
      "resources/build_info.json") = .ok ti)
    (h7 : parseVersionPayload ti = .ok cur) :
    (runMain env).2.resolved =
      some ⟨FsPath.join hh "bin/discord_bin/Discord/Discord", lat, cur, false⟩ ∧
    (runMain env).2.symlinkInvoked = false ∧
    (runMain env).2.events.all notSymlinkEvent = true := by
  have hres : resolve env =
      (.ok ⟨FsPath.join hh "bin/discord_bin/Discord/Discord", lat, cur, false⟩,
        [.locateCall, .fetchVersion,
          .readInstalled (FsPath.join hh "bin/discord_bin/Discord/Discord")]) := by
    unfold resolve default_discord_path home_dir get_latest_discord_version
      get_installed_version chooseInstallPath
    simp only [h1, h2, h4, h5, h3, h6, h7]
  exact ⟨runMain_resolved_of_resolve env _ _ hres,
    runMain_symlinkInvoked_false env _ _ hres rfl,
    runMain_events_no_symlink_notfresh env _ _ hres rfl⟩

theorem claim10_witness : (runMain envBase).2.symlinkInvoked = false :=
  (claim10_theorem envBase "/home/u" .notFound (some (jsonV "1.2.3")) (some (jsonV "1.2.3"))
    v123 v123 rfl rfl rfl rfl (by decide) rfl (by decide)).2.1

lemma resolve_installPath (env : Env) (r : ResolveOut) (evs : List Event) (hh : String)
    (hres : resolve env = (.ok r, evs)) (hhome : env.home = some hh) :
    r.installPath = chooseInstallPath env (FsPath.join hh "bin/discord_bin/Discord/Discord") := by
  unfold resolve default_discord_path home_dir at hres
  rw [hhome] at hres
  simp only [] at hres
  split at hres
  · simp at hres
  · split at hres
    · simp at hres
    · split at hres
      · simp at hres
      · simp only [Prod.mk.injEq, Except.ok.injEq] at hres
        obtain ⟨h1, h2⟩ := hres
        subst h1
        rfl
    · simp only [Prod.mk.injEq, Except.ok.injEq] at hres
      obtain ⟨h1, h2⟩ := hres
      subst h1
      rfl

lemma finishMain_fresh_err (env : Env) (r : ResolveOut) (evs : List Event) (upd : Bool)
    (hh : String) (e : Err) (evs3 : List Event)
    (hhome : env.home = some hh) (hfresh : r.installFresh = true)
    (hcs : create_home_bin_symlink env (FsPath.join hh "bin/discord_bin/Discord/Discord") =
      (.error e, evs3)) :
    finishMain env r evs upd = (.error e, ⟨evs ++ evs3, some r, upd, true⟩) := by
  unfold finishMain default_discord_path home_dir
  simp [hhome, hfresh, hcs]

lemma finishMain_fresh_ok (env : Env) (r : ResolveOut) (evs : List Event) (upd : Bool)
    (hh : String) (u : Unit) (evs3 : List Event)
    (hhome : env.home = some hh) (hfresh : r.installFresh = true)
    (hcs : create_home_bin_symlink env (FsPath.join hh "bin/discord_bin/Discord/Discord") =
      (.ok u, evs3)) :
    finishMain env r evs upd = (.ok (), ⟨evs ++ evs3, some r, upd, true⟩) := by
  unfold finishMain default_discord_path home_dir
  simp [hhome, hfresh, hcs]

lemma create_symlink_ok_inv (env : Env) (src : FsPath) (hh : String) (u : Unit)
    (evs3 : List Event) (hhome : env.home = some hh)
    (hcs : create_home_bin_symlink env src = (.ok u, evs3)) :
    evs3 = [.mkdir (FsPath.join hh "bin"),
      .symlinkCreate src (FsPath.join (FsPath.join hh "bin") "discord")] ∧
    env.linkOccupied (FsPath.join (FsPath.join hh "bin") "discord") = false := by
  unfold create_home_bin_symlink home_dir at hcs
  rw [hhome] at hcs
  simp only [] at hcs
  split at hcs
  · simp at hcs
  · split at hcs
    · simp at hcs
    · rename_i u2 hfs
      simp only [Prod.mk.injEq] at hcs
      refine ⟨hcs.2.symm, ?_⟩
      unfold fsSymlink at hfs
      by_cases hocc : env.linkOccupied (FsPath.join (FsPath.join hh "bin") "discord") = true
      · rw [if_pos hocc] at hfs
        simp at hfs
      · simp only [Bool.not_eq_true] at hocc
        exact hocc

/-- An environment in which the shell lookup prints a path but
canonicalizing it fails with an I/O error, while everything else
succeeds with equal versions. -/
def envC3 : Env := { envBase with bashWhich := .ok "/usr/bin/discord\n" }

/-- C3 counterexample: the install-location phase fails with an I/O
error (not a NotFound), yet the run does not terminate with an error —
the failure is absorbed into the default path and the run succeeds. -/
theorem claim3_counterexample :
    locate_installed_discord envC3 = .error .ioErr ∧ (runMain envC3).1 = .ok () :=
  ⟨by decide, by decide⟩

/-- C3 (amended): every failure during install-location, whatever its
kind, is absorbed into the default install path; an error in any other
phase terminates the run with that error: the `HOME` read at startup,
the network fetch of the latest version, the parse of the remote
payload, the existence check, the read of the installed version, the
download/install step, and the symlink step are all fatal. -/
theorem claim3_theorem :
    (∀ env hh e r, env.home = some hh → locate_installed_discord env = .error e →
      (runMain env).2.resolved = some r →
      r.installPath = FsPath.join hh "bin/discord_bin/Discord/Discord") ∧
    (∀ env hh k, env.home = some hh → env.fetchLatestBody = .error k →
      (runMain env).1 = .error k) ∧
    (∀ env hh k tl lat, env.home = some hh → env.fetchLatestBody = .ok tl →
      parseVersionPayload tl = .ok lat →
      env.tryExists (chooseInstallPath env (FsPath.join hh "bin/discord_bin/Discord/Discord")) =
        .error k →
      (runMain env).1 = .error k) ∧
    (∀ env hh k tl lat, env.home = some hh → env.fetchLatestBody = .ok tl →
      parseVersionPayload tl = .ok lat →
      env.tryExists (chooseInstallPath env (FsPath.join hh "bin/discord_bin/Discord/Discord")) =
        .ok true →
      get_installed_version env
          (chooseInstallPath env (FsPath.join hh "bin/discord_bin/Discord/Discord")) =
        .error k →
      (runMain env).1 = .error k) ∧
    (∀ env r evs k, resolve env = (.ok r, evs) → Version.lt r.current r.latest = true →
      (update_discord env r.installPath r.latest).1 = .error k →
      (runMain env).1 = .error k) ∧
    (∀ env, env.home = none → (runMain env).1 = .error .envVar) ∧
    (∀ env hh k tl, env.home = some hh → env.fetchLatestBody = .ok tl →
      parseVersionPayload tl = .error k → (runMain env).1 = .error k) ∧
    (∀ env hh r evs k, env.home = some hh → resolve env = (.ok r, evs) →
      r.installFresh = true →
      (Version.lt r.current r.latest = true →
        (update_discord env r.installPath r.latest).1 = .ok ()) →
      (create_home_bin_symlink env (FsPath.join hh "bin/discord_bin/Discord/Discord")).1 =
        .error k →
      (runMain env).1 = .error k) := by
  refine ⟨?_, ?_, ?_, ?_, ?_, ?_, ?_, ?_⟩
  · intro env hh e r hhome hloc hresv
    obtain ⟨evs, hres⟩ := runMain_resolved_inv env r hresv
    rw [resolve_installPath env r evs hh hres hhome]
    unfold chooseInstallPath
    rw [hloc]
  · intro env hh k hhome hfetch
    have hres : resolve env = (.error k, [.locateCall, .fetchVersion]) := by
      unfold resolve default_discord_path home_dir get_latest_discord_version
      simp only [hhome, hfetch]
    rw [runMain_error_of_resolve_error env k _ hres]
  · intro env hh k tl lat hhome hfetch hparse hte
    have hres : resolve env = (.error k, [.locateCall, .fetchVersion]) := by
      unfold resolve default_discord_path home_dir get_latest_discord_version
      simp only [hhome, hfetch, hparse, hte]
    rw [runMain_error_of_resolve_error env k _ hres]
  · intro env hh k tl lat hhome hfetch hparse hte hgi
    have hres : resolve env = (.error k, [.locateCall, .fetchVersion,
        .readInstalled (chooseInstallPath env (FsPath.join hh "bin/discord_bin/Discord/Discord"))]) := by
      unfold resolve default_discord_path home_dir get_latest_discord_version
      simp only [hhome, hfetch, hparse, hte, hgi]
    rw [runMain_error_of_resolve_error env k _ hres]
  · intro env r evs k hres hlt hupd
    simp only [runMain, hres, hlt, if_true]
    rcases hup : update_discord env r.installPath r.latest with ⟨ur, uevs⟩
    rw [hup] at hupd
    simp only [] at hupd
    subst hupd
    simp only [hup]
  · intro env h
    unfold runMain resolve default_discord_path home_dir
    rw [h]
  · intro env hh k tl hhome hfetch hparse
    have hres : resolve env = (.error k, [.locateCall, .fetchVersion]) := by
      unfold resolve default_discord_path home_dir get_latest_discord_version
      simp only [hhome, hfetch, hparse]
    rw [runMain_error_of_resolve_error env k _ hres]
  · intro env hh r evs k hhome hres hfresh hupok hcsf
    rcases hcs : create_home_bin_symlink env
        (FsPath.join hh "bin/discord_bin/Discord/Discord") with ⟨cr, evs3⟩
    rw [hcs] at hcsf
    have hcr : cr = .error k := hcsf
    subst hcr
    by_cases hlt : Version.lt r.current r.latest = true
    · rcases hup : update_discord env r.installPath r.latest with ⟨ur, uevs⟩
      have hu1 := hupok hlt
      rw [hup] at hu1
      have hu2 : ur = .ok () := hu1
      subst hu2
      have hrm : runMain env = finishMain env r (evs ++ uevs) true := by
        simp [runMain, hres, hlt, hup]
      rw [hrm, finishMain_fresh_err env r (evs ++ uevs) true hh k evs3 hhome hfresh hcs]
    · have hrm : runMain env = finishMain env r evs false := by
        simp [runMain, hres, hlt]
      rw [hrm, finishMain_fresh_err env r evs false hh k evs3 hhome hfresh hcs]

/-- An environment whose latest-version fetch fails with a network
error. -/
def envFetchFail : Env := { envBase with fetchLatestBody := .error .network }

theorem claim3_witness : (runMain envFetchFail).1 = .error .network :=
  claim3_theorem.2.1 envFetchFail "/home/u" .network rfl rfl

lemma finishMain_events_nodownload (env : Env) (r : ResolveOut) (evs : List Event) (upd : Bool)
    (hevs : evs.all (fun e => !e.isDownloadEvent) = true) :
    (finishMain env r evs upd).2.events.all (fun e => !e.isDownloadEvent) = true := by
  unfold finishMain
  split
  · split
    · exact hevs
    · rename_i dflt hd
      rcases hcs : create_home_bin_symlink env dflt with ⟨cr, evs3⟩
      have h3 := symlink_events_not_download env dflt
      rw [hcs] at h3
      rcases cr with e | u <;> simp only [hcs, RunLog.events] <;> rw [List.all_append, hevs, h3] <;> rfl
  · exact hevs

lemma readOnly_imp_notDownload (e : Event) (h : readOnlyEvent e = true) :
    (!e.isDownloadEvent) = true := by
  cases e <;> simp_all [readOnlyEvent, Event.isWrite, Event.isDownloadEvent]

lemma readOnly_imp_notWrite (e : Event) (h : readOnlyEvent e = true) :
    (!e.isWrite) = true := by
  cases e <;> simp_all [readOnlyEvent, Event.isWrite, Event.isDownloadEvent]

/-- An environment with no existing install, a remote latest version of
`0.0.0`, and a file already present at the symlink path. -/
def envC1 : Env := { envBase with
  fetchLatestBody := .ok (some (jsonV "0.0.0")),
  tryExists := fun _ => .ok false,
  linkOccupied := fun _ => true }

/-- C1 counterexample: a run resolving `latest = current = 0.0.0` (a
fresh install against a remote reporting the sentinel version) never
invokes the update step — yet it is not a successful no-op: the
symlink step still runs and the run exits with an I/O error. -/
theorem claim1_counterexample :
    (resolve envC1).1 =
      .ok ⟨"/home/u/bin/discord_bin/Discord/Discord", v000, v000, true⟩ ∧
    (runMain envC1).2.updateInvoked = false ∧
    (runMain envC1).1 = .error .ioErr :=
  ⟨by decide, by decide, by decide⟩

/-- C1 (amended): the update step is invoked exactly when the fetched
latest version is strictly greater than the resolved current version;
when it is not invoked no download/install effects occur; and when
additionally `install_fresh` is false, the run is a successful no-op
(result ok, no filesystem writes).  (When `install_fresh` is true the
symlink step still runs after the comparison, so such a run is not a
no-op and may fail.) -/
theorem claim1_theorem :
    (∀ env, (runMain env).2.resolved = none → (runMain env).2.updateInvoked = false) ∧
    (∀ env r, (runMain env).2.resolved = some r →
      ((runMain env).2.updateInvoked = true ↔ Version.lt r.current r.latest = true)) ∧
    (∀ env, (runMain env).2.updateInvoked = false →
      (runMain env).2.events.all (fun e => !e.isDownloadEvent) = true) ∧
    (∀ env r evs, resolve env = (.ok r, evs) → Version.lt r.current r.latest = false →
      r.installFresh = false → runMain env = (.ok (), ⟨evs, some r, false, false⟩)) ∧
    (∀ env r evs, resolve env = (.ok r, evs) → Version.lt r.current r.latest = false →
      r.installFresh = false → (runMain env).2.events.all (fun e => !e.isWrite) = true) := by
  refine ⟨?_, ?_, ?_, ?_, ?_⟩
  · intro env h
    rcases hres : resolve env with ⟨res, evs⟩
    rcases res with e | r
    · rw [runMain_error_of_resolve_error env e evs hres]
    · exfalso
      rw [runMain_resolved_of_resolve env r evs hres] at h
      simp at h
  · intro env r h
    obtain ⟨evs, hres⟩ := runMain_resolved_inv env r h
    rw [runMain_updateInvoked_eq env r evs hres]
  · intro env hupd
    rcases hres : resolve env with ⟨res, evs⟩
    have hro := resolve_events_readonly env
    rw [hres] at hro
    have hevs : evs.all (fun e => !e.isDownloadEvent) = true :=
      all_imp readOnly_imp_notDownload evs hro
    rcases res with e | r
    · rw [runMain_error_of_resolve_error env e evs hres]
      exact hevs
    · have hlt := runMain_updateInvoked_eq env r evs hres
      rw [hupd] at hlt
      simp only [runMain, hres, ← hlt, Bool.false_eq_true, if_false]
      exact finishMain_events_nodownload env r evs false hevs
  · intro env r evs hres hlt hfresh
    simp only [runMain, hres, hlt, Bool.false_eq_true, if_false]
    unfold finishMain
    rw [hfresh]
    simp
  · intro env r evs hres hlt hfresh
    have h4 : runMain env = (.ok (), ⟨evs, some r, false, false⟩) := by
      simp only [runMain, hres, hlt, Bool.false_eq_true, if_false]
      unfold finishMain
      rw [hfresh]
      simp
    rw [h4]
    have hro := resolve_events_readonly env
    rw [hres] at hro
    exact all_imp readOnly_imp_notWrite evs hro

theorem claim1_witness :
    runMain envBase = (.ok (), ⟨[.locateCall, .fetchVersion,
      .readInstalled "/home/u/bin/discord_bin/Discord/Discord"], some rOutBase, false, false⟩) :=
  claim1_theorem.2.2.2.1 envBase rOutBase
    [.locateCall, .fetchVersion, .readInstalled "/home/u/bin/discord_bin/Discord/Discord"]
    (by decide) (by decide) rfl

lemma finishMain_symlink_mem (env : Env) (r : ResolveOut) (evs : List Event) (upd : Bool)
    (s d : FsPath) (hevs : evs.all notSymlinkEvent = true)
    (hmem : Event.symlinkCreate s d ∈ (finishMain env r evs upd).2.events) :
    (finishMain env r evs upd).2.symlinkInvoked = true := by
  unfold finishMain at hmem ⊢
  split at hmem
  · rename_i hfresh
    split at hmem
    · exfalso
      have := (List.all_eq_true.mp hevs) _ hmem
      simp [notSymlinkEvent] at this
    · rename_i dflt hd
      rcases hcs : create_home_bin_symlink env dflt with ⟨cr, evs3⟩
      rcases cr with e | u <;> simp [hfresh]
  · exfalso
    have := (List.all_eq_true.mp hevs) _ hmem
    simp [notSymlinkEvent] at this

/-- An environment with no existing install and a remote latest version
of `0.0.0`, all later operations succeeding. -/
def envC5 : Env := { envBase with
  fetchLatestBody := .ok (some (jsonV "0.0.0")),
  tryExists := fun _ => .ok false }

/-- C5 counterexample: a successful run in which the convenience
symlink is created although the install step was never invoked — the
NoUpdate path with `install_fresh` set (fresh install, remote latest
`0.0.0`). -/
theorem claim5_counterexample :
    (runMain envC5).1 = .ok () ∧
    (runMain envC5).2.symlinkInvoked = true ∧
    (runMain envC5).2.updateInvoked = false :=
  ⟨by decide, by decide, by decide⟩

/-- C5 (amended): the symlink step runs only when `install_fresh` was
set during version resolution, and only after the preceding steps
succeeded — in particular, if the update step was invoked it must have
succeeded; conversely, whenever resolution sets `install_fresh` and
the steps before the symlink succeed, the symlink step is invoked.  It
is not restricted to the Installing path: when
`install_fresh` is set and the comparison yields no update (latest at
most the sentinel `0.0.0`), the symlink step runs on the NoUpdate path
as well. -/
theorem claim5_theorem :
    (∀ env, (runMain env).2.symlinkInvoked = true →
      ∃ r, (runMain env).2.resolved = some r ∧ r.installFresh = true) ∧
    (∀ env r, (runMain env).2.symlinkInvoked = true → (runMain env).2.resolved = some r →
      (runMain env).2.updateInvoked = true →
      (update_discord env r.installPath r.latest).1 = .ok ()) ∧
    (∀ env r, (runMain env).2.symlinkInvoked = true → (runMain env).2.resolved = some r →
      (runMain env).2.updateInvoked = false →
      Version.lt r.current r.latest = false ∧ r.current = v000) ∧
    (∀ env s d, Event.symlinkCreate s d ∈ (runMain env).2.events →
      (runMain env).2.symlinkInvoked = true) ∧
    (∀ env r evs, resolve env = (.ok r, evs) → r.installFresh = true →
      (Version.lt r.current r.latest = true →
        (update_discord env r.installPath r.latest).1 = .ok ()) →
      (runMain env).2.symlinkInvoked = true) := by
  refine ⟨?_, ?_, ?_, ?_, ?_⟩
  · intro env hsym
    rcases hres : resolve env with ⟨res, evs⟩
    rcases res with e | r
    · rw [runMain_error_of_resolve_error env e evs hres] at hsym
      exact absurd hsym (by simp)
    · refine ⟨r, runMain_resolved_of_resolve env r evs hres, ?_⟩
      by_contra hfresh
      have hf : r.installFresh = false := by
        cases hb : r.installFresh
        · rfl
        · exact absurd hb hfresh
      rw [runMain_symlinkInvoked_false env r evs hres hf] at hsym
      exact absurd hsym (by simp)
  · intro env r hsym hresv hupd
    obtain ⟨evs, hres⟩ := runMain_resolved_inv env r hresv
    have hlt := runMain_updateInvoked_eq env r evs hres
    rw [hupd] at hlt
    rcases hup : update_discord env r.installPath r.latest with ⟨ur, uevs⟩
    rcases ur with e | u
    · have hsf : (runMain env).2.symlinkInvoked = false := by
        simp [runMain, hres, ← hlt, hup]
      rw [hsf] at hsym
      exact absurd hsym (by simp)
    · rfl
  · intro env r hsym hresv hupd
    obtain ⟨evs, hres⟩ := runMain_resolved_inv env r hresv
    have hlt := runMain_updateInvoked_eq env r evs hres
    rw [hupd] at hlt
    have hfresh : r.installFresh = true := by
      by_contra hf
      have hf2 : r.installFresh = false := by
        cases hb : r.installFresh
        · rfl
        · exact absurd hb hf
      rw [runMain_symlinkInvoked_false env r evs hres hf2] at hsym
      exact absurd hsym (by simp)
    exact ⟨hlt.symm, (resolve_fresh_current env r evs hres hfresh).1⟩
  · intro env s d hmem
    rcases hres : resolve env with ⟨res, evs⟩
    have hro := resolve_events_readonly env
    rw [hres] at hro
    have hens : evs.all notSymlinkEvent = true := all_imp readOnly_imp_notSymlink evs hro
    rcases res with e | r
    · rw [runMain_error_of_resolve_error env e evs hres] at hmem
      exfalso
      have := (List.all_eq_true.mp hens) _ hmem
      simp [notSymlinkEvent] at this
    · by_cases hlt : Version.lt r.current r.latest = true
      · rcases hup : update_discord env r.installPath r.latest with ⟨ur, uevs⟩
        have hnos := update_events_no_symlink env r.installPath r.latest
        rw [hup] at hnos
        have hcat : (evs ++ uevs).all notSymlinkEvent = true := by
          rw [List.all_append, hens, hnos]
          rfl
        rcases ur with e | u
        · have hrm : runMain env = (.error e, ⟨evs ++ uevs, some r, true, false⟩) := by
            simp [runMain, hres, hlt, hup]
          rw [hrm] at hmem
          exfalso
          have := (List.all_eq_true.mp hcat) _ hmem
          simp [notSymlinkEvent] at this
        · have hrm : runMain env = finishMain env r (evs ++ uevs) true := by
            simp [runMain, hres, hlt, hup]
          rw [hrm] at hmem ⊢
          exact finishMain_symlink_mem env r (evs ++ uevs) true s d hcat hmem
      · have hrm : runMain env = finishMain env r evs false := by
          simp [runMain, hres, hlt]
        rw [hrm] at hmem ⊢
        exact finishMain_symlink_mem env r evs false s d hens hmem
  · intro env r evs hres hfresh hupok
    obtain ⟨hh, hhome⟩ := resolve_ok_home env r evs hres
    by_cases hlt : Version.lt r.current r.latest = true
    · rcases hup : update_discord env r.installPath r.latest with ⟨ur, uevs⟩
      have hu1 := hupok hlt
      rw [hup] at hu1
      have hu2 : ur = .ok () := hu1
      subst hu2
      have hrm : runMain env = finishMain env r (evs ++ uevs) true := by
        simp [runMain, hres, hlt, hup]
      rw [hrm, finishMain_symlinkInvoked env r (evs ++ uevs) true hh hhome, hfresh]
    · have hrm : runMain env = finishMain env r evs false := by
        simp [runMain, hres, hlt]
      rw [hrm, finishMain_symlinkInvoked env r evs false hh hhome, hfresh]

/-- A fresh-install environment: no existing install, everything else
succeeding, remote latest `1.2.3`. -/
def envFresh : Env := { envBase with tryExists := fun _ => .ok false }

theorem claim5_witness :
    ∃ r, (runMain envFresh).2.resolved = some r ∧ r.installFresh = true :=
  claim5_theorem.1 envFresh (by decide)

/-- C7: a fresh install that completes successfully has created the
`<home>/bin` directory and a symlink at `<home>/bin/discord` pointing
at the default install path, which requires that nothing already
occupied the link path (no overwrite); and if something does occupy it,
the symlink step fails and the failure is fatal (the run exits with the
I/O error). -/
theorem claim7_theorem :
    (∀ env hh r, env.home = some hh → (runMain env).1 = .ok () →
      (runMain env).2.resolved = some r → r.installFresh = true →
      Event.mkdir (FsPath.join hh "bin") ∈ (runMain env).2.events ∧
      Event.symlinkCreate (FsPath.join hh "bin/discord_bin/Discord/Discord")
        (FsPath.join (FsPath.join hh "bin") "discord") ∈ (runMain env).2.events ∧
      env.linkOccupied (FsPath.join (FsPath.join hh "bin") "discord") = false) ∧
    (∀ env hh r evs, env.home = some hh → resolve env = (.ok r, evs) →
      r.installFresh = true →
      (Version.lt r.current r.latest = true →
        (update_discord env r.installPath r.latest).1 = .ok ()) →
      env.createDirAll (FsPath.join hh "bin") = .ok () →
      env.linkOccupied (FsPath.join (FsPath.join hh "bin") "discord") = true →
      (runMain env).1 = .error .ioErr) := by
  constructor
  · intro env hh r hhome hok hresv hfresh
    obtain ⟨evs, hres⟩ := runMain_resolved_inv env r hresv
    by_cases hlt : Version.lt r.current r.latest = true
    · rcases hup : update_discord env r.installPath r.latest with ⟨ur, uevs⟩
      rcases ur with e | u
      · have hrm : runMain env = (.error e, ⟨evs ++ uevs, some r, true, false⟩) := by
          simp [runMain, hres, hlt, hup]
        rw [hrm] at hok
        exact absurd hok (by simp)
      · have hrm : runMain env = finishMain env r (evs ++ uevs) true := by
          simp [runMain, hres, hlt, hup]
        rcases hcs : create_home_bin_symlink env
            (FsPath.join hh "bin/discord_bin/Discord/Discord") with ⟨cr, evs3⟩
        rcases cr with e | u2
        · rw [hrm, finishMain_fresh_err env r (evs ++ uevs) true hh e evs3 hhome hfresh hcs]
            at hok
          exact absurd hok (by simp)
        · obtain ⟨hevs3, hocc⟩ := create_symlink_ok_inv env _ hh u2 evs3 hhome hcs
          rw [hrm, finishMain_fresh_ok env r (evs ++ uevs) true hh u2 evs3 hhome hfresh hcs]
          subst hevs3
          exact ⟨by simp, by simp, hocc⟩
    · have hrm : runMain env = finishMain env r evs false := by
        simp [runMain, hres, hlt]
      rcases hcs : create_home_bin_symlink env
          (FsPath.join hh "bin/discord_bin/Discord/Discord") with ⟨cr, evs3⟩
      rcases cr with e | u2
      · rw [hrm, finishMain_fresh_err env r evs false hh e evs3 hhome hfresh hcs] at hok
        exact absurd hok (by simp)
      · obtain ⟨hevs3, hocc⟩ := create_symlink_ok_inv env _ hh u2 evs3 hhome hcs
        rw [hrm, finishMain_fresh_ok env r evs false hh u2 evs3 hhome hfresh hcs]
        subst hevs3
        exact ⟨by simp, by simp, hocc⟩
  · intro env hh r evs hhome hres hfresh hupok hcd hocc
    have hcs : create_home_bin_symlink env (FsPath.join hh "bin/discord_bin/Discord/Discord") =
        (.error .ioErr, [.mkdir (FsPath.join hh "bin")]) := by
      unfold create_home_bin_symlink home_dir fsSymlink
      simp [hhome, hcd, hocc]
    by_cases hlt : Version.lt r.current r.latest = true
    · rcases hup : update_discord env r.installPath r.latest with ⟨ur, uevs⟩
      have hu1 := hupok hlt
      rw [hup] at hu1
      have hu2 : ur = .ok () := hu1
      subst hu2
      have hrm : runMain env = finishMain env r (evs ++ uevs) true := by
        simp [runMain, hres, hlt, hup]
      rw [hrm, finishMain_fresh_err env r (evs ++ uevs) true hh .ioErr
        [.mkdir (FsPath.join hh "bin")] hhome hfresh hcs]
    · have hrm : runMain env = finishMain env r evs false := by
        simp [runMain, hres, hlt]
      rw [hrm, finishMain_fresh_err env r evs false hh .ioErr
        [.mkdir (FsPath.join hh "bin")] hhome hfresh hcs]

theorem claim7_witness :
    Event.symlinkCreate (FsPath.join "/home/u" "bin/discord_bin/Discord/Discord")
      (FsPath.join (FsPath.join "/home/u" "bin") "discord") ∈ (runMain envFresh).2.events :=
  (claim7_theorem.1 envFresh "/home/u"
    ⟨"/home/u/bin/discord_bin/Discord/Discord", v123, v000, true⟩
    rfl (by decide) (by decide) rfl).2.1
